import Mathlib

/-
Verification of the formeer form-state library core (src/src/instances.ts,
latest revision: the FormeerField / Formeer classes backed by rxjs
BehaviorSubjects and lodash get/set).

Modelling conventions:
* JS values stored in the aggregate value tree are modelled by the inductive
  type Val.  Every object node carries an allocation id standing for its JS
  reference identity, which lets us reason about reference equality: lodash
  set mutates objects in place, so existing nodes keep their id, while
  intermediate containers it has to create receive a fresh id drawn from an
  allocation counter threaded through the operations.
* Dotted lodash paths are modelled by toPath, which splits a field name on
  the dot character (bracket syntax and numeric-index array creation are
  abstracted: every path segment addresses an object entry; the properties
  proved here are insensitive to the object/array distinction).
* rxjs BehaviorSubjects dispatch synchronously to their subscribers, and
  every FormeerField registers with its owning Formeer in its constructor,
  so a field-level operation is modelled as a single state transition on the
  combined FormState that already includes the registration subscription
  (value emissions write through setFieldValue into the aggregate tree).
* Debounced derived streams (error, combined errors) are modelled by their
  steady-state value: the value the stream settles on once the debounce
  windows have elapsed with no further source emissions.
* The submit lifecycle is asynchronous; it is modelled as an explicit phase
  record (state after the synchronous prefix, the tree contents the handler
  observes at invocation, the state once the handler result settles), with
  the writes dispatched during the await gap passed in explicitly.
-/

/-- A JS value in the aggregate value tree: undefined, a primitive, or an
object node carrying its allocation id (reference identity) and its ordered
own properties. -/
inductive Val : Type where
  | undefined : Val
  | str : String → Val
  | num : Int → Val
  | boolean : Bool → Val
  | obj : Nat → List (String × Val) → Val
deriving Repr

/-- Reference identity of the root of a tree: the allocation id when the root
is an object node. -/
def Val.rootId : Val → Option Nat
  | .obj i _ => some i
  | _ => none

/-- Whether a value is an object node. -/
def Val.isObj : Val → Bool
  | .obj _ _ => true
  | _ => false

/-- Whether a value is undefined. -/
def Val.isUndefined : Val → Bool
  | .undefined => true
  | _ => false

/-- JS truthiness of a value, used for conditions such as the
initializeValues check in Formeer.registerField. -/
def Val.truthy : Val → Bool
  | .undefined => false
  | .str s => !(s == "")
  | .num n => !(n == 0)
  | .boolean b => b
  | .obj _ _ => true

/-- Splits a character list on the dot character (helper for toPath). -/
def splitDotAux : List Char → List Char → List (List Char)
  | [], acc => [acc.reverse]
  | c :: cs, acc => if c = '.' then acc.reverse :: splitDotAux cs [] else splitDotAux cs (c :: acc)

/-- lodash toPath on a dotted property name: the list of path segments.  It
never returns the empty list (the empty name yields the single empty
segment, as in lodash). -/
def toPath (name : String) : List String := (splitDotAux name.toList []).map List.asString

/-- Property lookup in the ordered own-property list of an object node. -/
def lookupField : List (String × Val) → String → Option Val
  | [], _ => none
  | (k2, v) :: rest, k => if k2 = k then some v else lookupField rest k

/-- JS property assignment on the ordered own-property list: an existing key
is overwritten in place, a new key is appended. -/
def insertField : List (String × Val) → String → Val → List (String × Val)
  | [], k, v => [(k, v)]
  | (k2, v2) :: rest, k, v => if k2 = k then (k2, v) :: rest else (k2, v2) :: insertField rest k v

/-- lodash baseGet over a segment path: walk the path, yielding undefined as
soon as a segment is missing or a non-object is traversed. -/
def getPath : Val → List String → Val
  | v, [] => v
  | .obj _ fs, k :: ks =>
    match lookupField fs k with
    | some v => getPath v ks
    | none => .undefined
  | _, _ :: _ => .undefined

/-- The object lodash baseSet descends into at an intermediate path segment:
the existing slot value when it already is an object node (kept by
reference), otherwise a freshly allocated empty object replacing the missing
or primitive slot. -/
def childBase (slot : Option Val) (fresh : Nat) : Val × Nat :=
  match slot with
  | some (.obj j gs) => (.obj j gs, fresh)
  | _ => (.obj fresh [], fresh + 1)

/-- lodash baseSet over a segment path, with reference identity made
explicit.  baseSet mutates its argument: an existing object node keeps its
id and has the relevant property overwritten; a missing or primitive slot on
the path is replaced by a freshly allocated empty object (the allocation
counter is threaded through and returned); a primitive root is returned
unchanged.  The returned tree is the same JS object as the argument whenever
the argument is an object node. -/
def setPath : Val → List String → Val → Nat → Val × Nat
  | t, [], _, n => (t, n)
  | .obj i fs, [k], v, n => (.obj i (insertField fs k v), n)
  | .obj i fs, k :: k2 :: ks, v, n =>
    let c := childBase (lookupField fs k) n
    let r := setPath c.1 (k2 :: ks) v c.2
    (.obj i (insertField fs k r.1), r.2)
  | t, _ :: _, _, n => (t, n)

/-- lodash get with a dotted property name. -/
def lodashGet (t : Val) (name : String) : Val := getPath t (toPath name)

/-- Property read used when a JS object is destructured, as in the Formeer
constructor reading initializeValues, initialValues and onSubmit from its
options parameter: a missing property or a non-object base reads as
undefined. -/
def propOf (o : Val) (k : String) : Val :=
  match o with
  | .obj _ fs => (lookupField fs k).getD .undefined
  | _ => .undefined

/-- The reactive state owned by one FormeerField instance: the current
values of its setValue, setError, setIsTouched and setIsDisabled
BehaviorSubjects, its optional validator, and an instrumentation counter of
how many times the validator has been invoked (used to state that an
operation does not re-run validation). -/
structure FieldState where
  value : Val
  error : Option String
  isTouched : Bool
  isDisabled : Bool
  validator : Option (Val → Val → Option String)
  validatorRuns : Nat

/-- The combined state of one Formeer instance together with its registered
FormeerField instances.  values and nextId model the aggregate value tree
held in the setValues BehaviorSubject plus the JS allocation counter;
fieldNames models the setFieldNames BehaviorSubject; fields maps each
registered field name to its FieldState (the per-form slice of the
FormeerField registry). -/
structure FormState where
  name : String
  values : Val
  nextId : Nat
  fieldNames : List String
  isSubmitting : Bool
  initializeValues : Bool
  fields : List (String × FieldState)

/-- The current aggregate value tree (the Formeer currentValues getter,
lines 396-398, also the value the values stream holds). -/
def FormState.currentValues (s : FormState) : Val := s.values

/-- Lookup of a registered FormeerField by name. -/
def findField : List (String × FieldState) → String → Option FieldState
  | [], _ => none
  | (k, f) :: rest, n => if k = n then some f else findField rest n

/-- Applies an update to every registry entry carrying the given field name
(there is one per registered field). -/
def modifyField (s : FormState) (n : String) (g : FieldState → FieldState) : FormState :=
  { s with fields := s.fields.map (fun p => if p.1 = n then (p.1, g p.2) else p) }

/-- Formeer.setFieldValue (lines 362-364): the single write path into the
aggregate tree, invoked by the registration subscription on every field
value emission.  It pushes the result of lodash set on the current tree,
which is the same root object mutated in place. -/
def setFieldValue (s : FormState) (n : String) (v : Val) : FormState :=
  let r := setPath s.values (toPath n) v s.nextId
  { s with values := r.1, nextId := r.2 }

/-- FormeerField.runValidation (lines 256-263) applied to a field state,
with the value to validate and the owning form currentValues passed in: a
disabled field returns before invoking the validator; otherwise, when a
validator is present, the stored error becomes its result and the
invocation counter increases. -/
def runValidationWith (currentValues : Val) (v : Val) (f : FieldState) : FieldState :=
  if f.isDisabled then f
  else
    match f.validator with
    | some check => { f with error := check v currentValues, validatorRuns := f.validatorRuns + 1 }
    | none => f

/-- runValidation on the named field with its own current value (the default
argument of FormeerField.runValidation), as invoked by onBlur, by the field
constructor and by Formeer.triggerValidation. -/
def runValidationOn (s : FormState) (n : String) : FormState :=
  modifyField s n (fun f => runValidationWith s.values f.value f)

/-- FormeerField.handleChange (lines 232-236): the setValue BehaviorSubject
emits the new value, which synchronously dispatches to the registration
subscription writing the aggregate tree, and then runValidation runs with
the new value. -/
def handleChange (s : FormState) (n : String) (v : Val) : FormState :=
  let s1 := modifyField s n (fun f => { f with value := v })
  let s2 := setFieldValue s1 n v
  modifyField s2 n (runValidationWith s2.values v)

/-- FormeerField.setValue (lines 277-279): emits on the value stream (and
thus writes the aggregate tree through the registration subscription)
without running validation. -/
def setValueOp (s : FormState) (n : String) (v : Val) : FormState :=
  let s1 := modifyField s n (fun f => { f with value := v })
  setFieldValue s1 n v

/-- The onBlur handler (lines 207-210): marks the field touched, then runs
validation on the stored current value. -/
def onBlur (s : FormState) (n : String) : FormState :=
  let s1 := modifyField s n (fun f => { f with isTouched := true })
  runValidationOn s1 n

/-- FormeerField.setIsDisabled (lines 269-271): emits the flag; nothing else
changes (in particular the stored error is untouched and no validation
runs). -/
def setIsDisabledOp (s : FormState) (n : String) (b : Bool) : FormState :=
  modifyField s n (fun f => { f with isDisabled := b })

/-- FormeerField.setError (lines 265-267). -/
def setErrorOp (s : FormState) (n : String) (e : Option String) : FormState :=
  modifyField s n (fun f => { f with error := e })

/-- FormeerField.setIsTouched (lines 273-275). -/
def setIsTouchedOp (s : FormState) (n : String) (b : Bool) : FormState :=
  modifyField s n (fun f => { f with isTouched := b })

/-- Options passed to the FormeerField constructor: an optional initial
value (undefined meaning absent) and an optional validator. -/
structure FieldOptions where
  initialValue : Val
  validator : Option (Val → Val → Option String)

/-- The FormeerField constructor (lines 191-214) together with the
Formeer.registerField call it performs (lines 349-360): the field starts
with its initial value (the setValue subject starts at undefined, so an
absent initial value leaves it undefined); if the form was configured with
initializeValues, registerField overwrites the field value from the
aggregate tree (this emission happens before the form subscribes, so it
does not write the tree); the registration subscription then fires
immediately with the current field value (BehaviorSubject semantics),
writing it into the aggregate tree; the field name is appended; finally the
constructor runs validation once. -/
def registerNewField (s : FormState) (fieldName : String) (opts : FieldOptions) : FormState :=
  let f0 : FieldState :=
    { value := opts.initialValue, error := none, isTouched := false, isDisabled := false,
      validator := opts.validator, validatorRuns := 0 }
  let f1 := if s.initializeValues then { f0 with value := lodashGet s.values fieldName } else f0
  let s1 := setFieldValue s fieldName f1.value
  let s2 := { s1 with fieldNames := s1.fieldNames ++ [fieldName],
                      fields := s1.fields ++ [(fieldName, f1)] }
  runValidationOn s2 fieldName

/-- Formeer.triggerValidation (lines 391-394): runs validation on every
registered field, in registration order. -/
def triggerValidation (s : FormState) : FormState :=
  s.fieldNames.foldl runValidationOn s

/-- Steady-state value of the FormeerField error stream (lines 216-230).
With pure true it is the stored error suppressed while the field is
disabled; with pure false it is additionally suppressed while the field is
untouched. -/
def errorOut (f : FieldState) (pure : Bool) : Option String :=
  let e := if f.isDisabled then none else f.error
  if pure then e else if f.isTouched then e else none

/-- JS truthiness of a validation error, as used by the filter in
Formeer.errors (an absent error and the empty string are both falsy). -/
def truthyError : Option String → Bool
  | some s => !(s == "")
  | none => false

/-- Steady-state value of Formeer.errors (lines 340-347): the registered
field names (optionally filtered), each mapped to the steady state of its
error stream with pure set to the negation of hideUntouched, keeping only
truthy entries. -/
def errorsOut (s : FormState) (hideUntouched : Bool) (filter : Option (List String)) : List String :=
  let names :=
    match filter with
    | some fl => s.fieldNames.filter (fun n => fl.contains n)
    | none => s.fieldNames
  (names.map (fun n =>
    match findField s.fields n with
    | some f => errorOut f (!hideUntouched)
    | none => none)).filterMap (fun e => if truthyError e then e else none)

/-- How the value returned by the submit handler behaves: a plain
(non-promise) value, a promise that eventually fulfills, or a promise that
eventually rejects. -/
inductive HandlerOutcome : Type where
  | value : HandlerOutcome
  | fulfills : HandlerOutcome
  | rejects : HandlerOutcome

/-- Field-value emissions dispatched into the aggregate tree while
submitForm is suspended at its await (each runs through setFieldValue, the
single write path). -/
def applyWrites (s : FormState) (ws : List (String × Val)) : FormState :=
  ws.foldl (fun acc w => setFieldValue acc w.1 w.2) s

/-- Observation record of one submitForm call that reached the handler
(lines 376-388): the state after the synchronous prefix (up to the await),
the tree contents the handler observes at invocation, the result handed
back to the caller, whether isSubmitting holds while the handler result is
pending, and the state once that result settles. -/
structure SubmitRun (α : Type) where
  afterCall : FormState
  handlerArg : Val
  returned : α
  whilePending : Bool
  afterSettle : FormState

/-- Formeer.submitForm with a configured handler (lines 376-388).  The
synchronous prefix sets isSubmitting.  The awaited first value of the
values stream is the current root object by reference; since lodash set
mutates that root in place, the contents the handler observes at invocation
include every write dispatched during the await gap.  The handler result is
returned to the caller.  isSubmitting is reset in a fulfillment callback
attached with then (or synchronously for a non-promise result); no
rejection callback is attached, so a rejected result leaves isSubmitting
set. -/
def submitFormRun {α : Type} (handler : Val → α) (outcome : HandlerOutcome) (s : FormState)
    (gapWrites : List (String × Val)) : SubmitRun α :=
  let s1 : FormState := { s with isSubmitting := true }
  let s2 := applyWrites s1 gapWrites
  { afterCall := s1
    handlerArg := s2.values
    returned := handler s2.values
    whilePending := s2.isSubmitting
    afterSettle :=
      match outcome with
      | .value => { s2 with isSubmitting := false }
      | .fulfills => { s2 with isSubmitting := false }
      | .rejects => s2 }

/-- Result of one submitForm call (lines 370-389): either the missing
handler warning branch, which returns undefined and performs no state
change, or a run that reached the handler. -/
inductive SubmitCall (α : Type) : Type where
  | warned : FormState → SubmitCall α
  | ran : SubmitRun α → SubmitCall α

/-- Formeer.submitForm (lines 370-389): without a handler it logs a warning
and returns with no state change; with a handler it proceeds as
submitFormRun. -/
def submitForm {α : Type} (handlerOpt : Option (Val → α)) (outcome : HandlerOutcome)
    (s : FormState) (gapWrites : List (String × Val)) : SubmitCall α :=
  match handlerOpt with
  | none => .warned s
  | some h => .ran (submitFormRun h outcome s gapWrites)

/-- The form state once the submitForm call and any handler result have
fully settled. -/
def SubmitCall.finalState {α : Type} : SubmitCall α → FormState
  | .warned s => s
  | .ran r => r.afterSettle

/-- What the submitForm call hands back to its caller: nothing on the
warning branch (the handler is never invoked), the handler result
otherwise. -/
def SubmitCall.returnedResult {α : Type} : SubmitCall α → Option α
  | .warned _ => none
  | .ran r => some r.returned

/-- Formeer.getInstance on the first lookup for a name (lines 295-301)
composed with the Formeer constructor (lines 317-328).  getInstance passes
its initialValues argument directly as the second constructor argument, and
the constructor treats that argument as its options bag, destructuring
initializeValues, initialValues and onSubmit from it.  The values subject
starts at a freshly allocated empty object and is replaced only when the
destructured initialValues property is not undefined. -/
def formeerGetInstanceFirst (name : String) (initialValues : Val) (freshRootId : Nat) : FormState :=
  let options := initialValues
  let initVals := propOf options "initialValues"
  { name := name
    values := if initVals.isUndefined then Val.obj freshRootId [] else initVals
    nextId := freshRootId + 1
    fieldNames := []
    isSubmitting := false
    initializeValues := (propOf options "initializeValues").truthy
    fields := [] }

/-- The process-wide FormeerField instance registry (lines 163, 165-173,
194-195): keys are strings, entries carry the identity of the stored
container (modelled as an allocation id drawn from a counter). -/
structure FieldRegistry where
  entries : List (String × Nat)
  nextInstanceId : Nat

/-- The composite registry key built by FormeerField.getInstance (line 166):
the owning form name, a hyphen, and the field name. -/
def fieldKey (formName fieldName : String) : String := formName ++ "-" ++ fieldName

/-- Lookup in the instance registry. -/
def lookupKey : List (String × Nat) → String → Option Nat
  | [], _ => none
  | (k, i) :: rest, key => if k = key then some i else lookupKey rest key

/-- FormeerField.getInstance (lines 165-173): when no entry exists under the
composite key, a new container is constructed (the constructor stores
itself under that key, line 194-195); the entry under the key is returned.
The result is the registry after the call and the identity of the returned
container. -/
def getFieldInstance (r : FieldRegistry) (formName fieldName : String) : FieldRegistry × Nat :=
  let key := fieldKey formName fieldName
  match lookupKey r.entries key with
  | some i => (r, i)
  | none =>
    ({ entries := (key, r.nextInstanceId) :: r.entries, nextInstanceId := r.nextInstanceId + 1 },
     r.nextInstanceId)

/-- The empty FormeerField registry. -/
def emptyFieldRegistry : FieldRegistry := { entries := [], nextInstanceId := 0 }

/-
Helper lemmas about the value-path accessor and the field registry.
-/

/-- splitDotAux never returns the empty list. -/
theorem splitDotAux_ne_nil (cs : List Char) : ∀ acc, splitDotAux cs acc ≠ [] := by
  induction cs with
  | nil => intro acc; simp [splitDotAux]
  | cons c cs ih =>
    intro acc
    simp only [splitDotAux]
    split
    · simp
    · exact ih _

/-- toPath never yields an empty path. -/
theorem toPath_ne_nil (s : String) : toPath s ≠ [] := by
  unfold toPath
  simp [splitDotAux_ne_nil]

/-- Looking up the key just written finds the written value. -/
theorem lookupField_insertField_self (fs : List (String × Val)) (k : String) (v : Val) :
    lookupField (insertField fs k v) k = some v := by
  induction fs with
  | nil => simp [insertField, lookupField]
  | cons p rest ih =>
    obtain ⟨k2, v2⟩ := p
    by_cases h : k2 = k
    · simp [insertField, lookupField, h]
    · simp [insertField, lookupField, h, ih]

/-- Writing one key leaves every other key unchanged. -/
theorem lookupField_insertField_ne (fs : List (String × Val)) (k q : String) (v : Val)
    (h : q ≠ k) : lookupField (insertField fs k v) q = lookupField fs q := by
  induction fs with
  | nil => simp [insertField, lookupField, Ne.symm h]
  | cons p rest ih =>
    obtain ⟨k2, v2⟩ := p
    by_cases h2 : k2 = k
    · subst h2
      simp [insertField, lookupField, Ne.symm h]
    · by_cases h3 : k2 = q
      · simp [insertField, lookupField, h2, h3, h]
      · simp [insertField, lookupField, h2, h3, ih]

/-- An object node is exactly a value built by the obj constructor. -/
theorem Val.isObj_iff (t : Val) : t.isObj = true ↔ ∃ i fs, t = Val.obj i fs := by
  cases t <;> simp [Val.isObj]

/-- The base childBase descends into is always an object node. -/
theorem childBase_isObj (slot : Option Val) (n : Nat) : (childBase slot n).1.isObj = true := by
  match slot with
  | none => rfl
  | some (.obj j gs) => rfl
  | some .undefined => rfl
  | some (.str s) => rfl
  | some (.num m) => rfl
  | some (.boolean b) => rfl

/-- When the slot does not hold an object, childBase allocates a fresh empty
object. -/
theorem childBase_not_obj (w : Val) (n : Nat) (hw : w.isObj = false) :
    childBase (some w) n = (Val.obj n [], n + 1) := by
  cases w <;> simp_all [childBase, Val.isObj]

/-- Reading a nonempty path out of a non-object yields undefined. -/
theorem getPath_not_obj (t : Val) (q1 : String) (qs : List String) (ht : t.isObj = false) :
    getPath t (q1 :: qs) = Val.undefined := by
  cases t <;> simp_all [getPath, Val.isObj]

/-- lodash get after lodash set on the same nonempty path yields the written
value, for any object root. -/
theorem getPath_setPath_self (p : List String) : ∀ (t v : Val) (n : Nat),
    p ≠ [] → t.isObj = true → getPath (setPath t p v n).1 p = v := by
  induction p with
  | nil => intro t v n h _; exact absurd rfl h
  | cons k ks ih =>
    intro t v n _ hobj
    obtain ⟨i, fs, rfl⟩ := (Val.isObj_iff t).mp hobj
    cases ks with
    | nil =>
      simp [setPath, getPath, lookupField_insertField_self]
    | cons k2 ks2 =>
      simp only [setPath, getPath, lookupField_insertField_self]
      exact ih _ _ _ (by simp) (childBase_isObj _ _)

/-- lodash set keeps the root reference: the returned tree has the same root
identity as the argument (the root object is mutated in place; a primitive
root is returned unchanged). -/
theorem rootId_setPath (t : Val) (p : List String) (v : Val) (n : Nat) :
    (setPath t p v n).1.rootId = t.rootId := by
  cases p with
  | nil => cases t <;> rfl
  | cons k ks =>
    cases t with
    | obj i fs =>
      cases ks with
      | nil => rfl
      | cons k2 ks2 => simp [setPath, Val.rootId]
    | undefined => rfl
    | str s => rfl
    | num m => rfl
    | boolean b => rfl

/-- lodash set does not disturb any path unrelated to the written path
(neither a prefix of it nor an extension of it): both the contents and the
node identities read there are unchanged. -/
theorem getPath_setPath_off (p : List String) : ∀ (t v : Val) (n : Nat) (q : List String),
    p.isPrefixOf q = false → q.isPrefixOf p = false →
    getPath (setPath t p v n).1 q = getPath t q := by
  induction p with
  | nil => intro t v n q h1 h2; simp [setPath]
  | cons k ks ih =>
    intro t v n q h1 h2
    cases q with
    | nil => simp [List.isPrefixOf] at h2
    | cons k1 qs =>
      cases t with
      | obj i fs =>
        cases ks with
        | nil =>
          by_cases hk : k1 = k
          · subst hk
            simp [List.isPrefixOf] at h1
          · simp [setPath, getPath, lookupField_insertField_ne fs k k1 v hk]
        | cons k2 ks2 =>
          by_cases hk : k1 = k
          · subst hk
            have h1' : (k2 :: ks2).isPrefixOf qs = false := by
              simpa [List.isPrefixOf] using h1
            have h2' : qs.isPrefixOf (k2 :: ks2) = false := by
              simpa [List.isPrefixOf] using h2
            simp only [setPath, getPath, lookupField_insertField_self]
            rw [ih _ _ _ _ h1' h2']
            cases hl : lookupField fs k1 with
            | none =>
              cases qs with
              | nil => simp [List.isPrefixOf] at h2'
              | cons q1 qs2 => simp [childBase, getPath, lookupField, hl]
            | some w =>
              by_cases hw : w.isObj = true
              · obtain ⟨j, gs, rfl⟩ := (Val.isObj_iff w).mp hw
                simp [childBase, getPath, hl]
              · cases qs with
                | nil => simp [List.isPrefixOf] at h2'
                | cons q1 qs2 =>
                  rw [childBase_not_obj w n (Bool.not_eq_true w.isObj ▸ hw)]
                  simp [getPath, lookupField, hl, getPath_not_obj w q1 qs2]
                  exact (getPath_not_obj w q1 qs2 (by simpa using hw)).symm
          · simp only [setPath, getPath]
            rw [lookupField_insertField_ne fs k k1 _ hk]
      | undefined => rfl
      | str s => rfl
      | num m => rfl
      | boolean b => rfl

/-- Updating the registry entries under one field name relates to lookup in
the expected way: the looked-up entry is transformed exactly when the looked
up name is the updated one. -/
theorem findField_map_update (l : List (String × FieldState)) (n m : String)
    (g : FieldState → FieldState) :
    findField (l.map (fun p => if p.1 = n then (p.1, g p.2) else p)) m
      = if m = n then (findField l m).map g else findField l m := by
  induction l with
  | nil => by_cases h : m = n <;> simp [findField, h]
  | cons p rest ih =>
    obtain ⟨k, f⟩ := p
    simp only [List.map_cons]
    by_cases hkn : k = n
    · have h1 : (if (k, f).1 = n then ((k, f).1, g (k, f).2) else (k, f)) = (k, g f) := by
        simp [hkn]
      rw [h1]
      by_cases hkm : k = m
      · subst hkm
        subst hkn
        simp [findField]
      · have hmn : ¬ m = n := fun h => hkm (hkn.trans h.symm)
        simp [findField, hkm, hmn, ih]
    · have h1 : (if (k, f).1 = n then ((k, f).1, g (k, f).2) else (k, f)) = (k, f) := by
        simp [hkn]
      rw [h1]
      by_cases hkm : k = m
      · subst hkm
        simp [findField, hkn]
      · simp [findField, hkm, ih]

/-- findField after modifyField. -/
theorem findField_modifyField (s : FormState) (n : String) (g : FieldState → FieldState)
    (m : String) :
    findField (modifyField s n g).fields m
      = if m = n then (findField s.fields m).map g else findField s.fields m := by
  simp [modifyField, findField_map_update]

/-- modifyField does not touch the aggregate tree. -/
theorem modifyField_values (s : FormState) (n : String) (g : FieldState → FieldState) :
    (modifyField s n g).values = s.values := rfl

/-- modifyField does not touch the field-name sequence. -/
theorem modifyField_fieldNames (s : FormState) (n : String) (g : FieldState → FieldState) :
    (modifyField s n g).fieldNames = s.fieldNames := rfl

/-- setFieldValue does not touch the field states. -/
theorem setFieldValue_fields (s : FormState) (n : String) (v : Val) :
    (setFieldValue s n v).fields = s.fields := rfl

/-- setFieldValue does not touch the field-name sequence. -/
theorem setFieldValue_fieldNames (s : FormState) (n : String) (v : Val) :
    (setFieldValue s n v).fieldNames = s.fieldNames := rfl

/-- The aggregate tree after setFieldValue is the lodash set result. -/
theorem setFieldValue_values (s : FormState) (n : String) (v : Val) :
    (setFieldValue s n v).values = (setPath s.values (toPath n) v s.nextId).1 := rfl

/-- A disabled field is left untouched by runValidation, whichever value is
passed in. -/
theorem runValidationWith_disabled (cv v : Val) (f : FieldState) (hd : f.isDisabled = true) :
    runValidationWith cv v f = f := by
  simp [runValidationWith, hd]

/-- Running validation on any field of the form leaves a disabled field
entry exactly as it was. -/
theorem findField_runValidationOn_disabled (s : FormState) (m n : String) (f : FieldState)
    (hf : findField s.fields n = some f) (hd : f.isDisabled = true) :
    findField (runValidationOn s m).fields n = some f := by
  rw [runValidationOn, findField_modifyField]
  by_cases h : n = m
  · subst h
    rw [if_pos rfl, hf]
    simp [runValidationWith, hd]
  · rw [if_neg h]
    exact hf

/-
Concrete sample states used by the witnesses and counterexamples.
-/

/-- A plain field state used by the concrete witnesses. -/
def emailField : FieldState :=
  { value := Val.str "", error := none, isTouched := false, isDisabled := false,
    validator := none, validatorRuns := 0 }

/-- A small login form with one registered field, used by the concrete
witnesses. -/
def loginForm : FormState :=
  { name := "login", values := Val.obj 0 [("email", Val.str "")], nextId := 2,
    fieldNames := ["email"], isSubmitting := false, initializeValues := false,
    fields := [("email", emailField)] }

/-- A form whose aggregate tree has a written branch and a sibling branch,
used to observe root identity and structural sharing across a write. -/
def sharingForm : FormState :=
  { name := "f", values := Val.obj 0 [("a", Val.str "x"), ("sib", Val.obj 1 [("z", Val.num 1)])],
    nextId := 2, fieldNames := ["a"], isSubmitting := false, initializeValues := false,
    fields := [] }

/-
The claims.
-/

/-- C1: for every form and every field registered with it, a value emitted on
the field value stream by handleChange or setValue is written synchronously
into the aggregate value tree at the field path: when the dispatch of the
emission completes, currentValues holds the emitted value at that path. -/
theorem C1_emitted_value_written_synchronously (s : FormState) (n : String) (v : Val)
    (_hreg : (findField s.fields n).isSome = true) (hobj : s.values.isObj = true) :
    lodashGet (handleChange s n v).currentValues n = v ∧
    lodashGet (setValueOp s n v).currentValues n = v := by
  have h1 : (handleChange s n v).currentValues = (setPath s.values (toPath n) v s.nextId).1 := rfl
  have h2 : (setValueOp s n v).currentValues = (setPath s.values (toPath n) v s.nextId).1 := rfl
  constructor
  · simp only [lodashGet, h1]
    exact getPath_setPath_self (toPath n) s.values v s.nextId (toPath_ne_nil n) hobj
  · simp only [lodashGet, h2]
    exact getPath_setPath_self (toPath n) s.values v s.nextId (toPath_ne_nil n) hobj

/-- C1 witness: concrete instantiation on the login form. -/
theorem C1_emitted_value_written_synchronously_witness :
    ((findField loginForm.fields "email").isSome = true ∧ loginForm.values.isObj = true) ∧
    (lodashGet (handleChange loginForm "email" (Val.str "a@b.com")).currentValues "email"
        = Val.str "a@b.com" ∧
      lodashGet (setValueOp loginForm "email" (Val.str "a@b.com")).currentValues "email"
        = Val.str "a@b.com") :=
  ⟨⟨rfl, rfl⟩,
    C1_emitted_value_written_synchronously loginForm "email" (Val.str "a@b.com") rfl rfl⟩

/-- C2 counterexample: the claim says every path-set write produces a new
root reference distinct from the previous root; on this concrete form the
root identity after Formeer.setFieldValue equals the root identity before it
(lodash set mutates the root object in place and returns it), refuting the
claimed distinctness. -/
theorem C2_counterexample :
    (setFieldValue sharingForm "a" (Val.str "y")).values.rootId = sharingForm.values.rootId ∧
    sharingForm.values.rootId = some 0 :=
  ⟨rfl, rfl⟩

/-- C2 amended: every path-set write mutates the exposed tree in place: the
root reference after the write equals the root reference before it, and
every subtree whose path is unrelated to the written path (neither a prefix
of it nor an extension of it) is shared between the old and the new tree:
same contents and same node identities. -/
theorem C2_amended_in_place_sharing (s : FormState) (n : String) (v : Val) (q : List String)
    (h1 : (toPath n).isPrefixOf q = false) (h2 : q.isPrefixOf (toPath n) = false) :
    (setFieldValue s n v).values.rootId = s.values.rootId ∧
    getPath (setFieldValue s n v).values q = getPath s.values q := by
  constructor
  · rw [setFieldValue_values]
    exact rootId_setPath s.values (toPath n) v s.nextId
  · rw [setFieldValue_values]
    exact getPath_setPath_off (toPath n) s.values v s.nextId q h1 h2

/-- C2 witness: the write at path a keeps the root identity and leaves the
sibling subtree untouched. -/
theorem C2_amended_in_place_sharing_witness :
    ((toPath "a").isPrefixOf ["sib"] = false ∧ ["sib"].isPrefixOf (toPath "a") = false) ∧
    ((setFieldValue sharingForm "a" (Val.str "y")).values.rootId = sharingForm.values.rootId ∧
      getPath (setFieldValue sharingForm "a" (Val.str "y")).values ["sib"]
        = getPath sharingForm.values ["sib"]) :=
  ⟨⟨rfl, rfl⟩, C2_amended_in_place_sharing sharingForm "a" (Val.str "y") ["sib"] rfl rfl⟩

/-- C10: FormeerField.getInstance keys its registry by the concatenation of
form name, a hyphen, and field name, so the distinct pairs (a, b-c) and
(a-b, c) collide on the key a-b-c, and the second lookup returns the
identical shared container created by the first instead of a new one. -/
theorem C10_registry_key_collision :
    fieldKey "a" "b-c" = fieldKey "a-b" "c" ∧
    (("a", "b-c") : String × String) ≠ ("a-b", "c") ∧
    (getFieldInstance (getFieldInstance emptyFieldRegistry "a" "b-c").1 "a-b" "c").2
      = (getFieldInstance emptyFieldRegistry "a" "b-c").2 :=
  ⟨by decide, by decide, by decide⟩

/-- A one-field form about to be submitted, holding an old value at path a,
used by the submit counterexample and failing-input evaluations. -/
def submitForm0 : FormState :=
  { name := "f", values := Val.obj 0 [("a", Val.str "old")], nextId := 1,
    fieldNames := ["a"], isSubmitting := false, initializeValues := false,
    fields := [("a", { value := Val.str "old", error := none, isTouched := false,
                       isDisabled := false, validator := none, validatorRuns := 0 })] }

/-- C3 counterexample: with a field write dispatched between the submitForm
call and the handler invocation, the tree the handler receives differs from
the aggregate tree as of the call (the awaited snapshot is the live root
reference, mutated in place by lodash set), refuting the claimed equality
with the call-time tree. -/
theorem C3_counterexample :
    (submitFormRun (fun x => x) HandlerOutcome.fulfills submitForm0
        [("a", Val.str "new")]).handlerArg ≠ submitForm0.currentValues ∧
    lodashGet (submitFormRun (fun x => x) HandlerOutcome.fulfills submitForm0
        [("a", Val.str "new")]).handlerArg "a" = Val.str "new" ∧
    lodashGet submitForm0.currentValues "a" = Val.str "old" := by
  refine ⟨?_, rfl, rfl⟩
  show Val.obj 0 [("a", Val.str "new")] ≠ Val.obj 0 [("a", Val.str "old")]
  simp

/-- C3 amended: the values object passed to the handler is the live aggregate
tree as of the handler invocation: the call-time tree with every field write
dispatched during the await gap applied in place, so it equals the call-time
tree exactly when no field emission lands in that gap; and submitForm hands
the handler result (settling or not) back to its caller. -/
theorem C3_amended_handler_sees_live_tree {α : Type} (handler : Val → α)
    (outcome : HandlerOutcome) (s : FormState) (ws : List (String × Val)) :
    (submitFormRun handler outcome s []).handlerArg = s.currentValues ∧
    (submitFormRun handler outcome s ws).handlerArg
      = (applyWrites { s with isSubmitting := true } ws).currentValues ∧
    (submitFormRun handler outcome s ws).returned
      = handler (submitFormRun handler outcome s ws).handlerArg :=
  ⟨rfl, rfl, rfl⟩

/-- C4: evaluation of submitForm at the failing input, a handler whose
promise rejects: isSubmitting is true immediately after the call and while
the promise is pending, but the code attaches only a fulfillment callback to
the promise, so after the rejection settles the flag is still true (it is
reset on a fulfilled promise and on a synchronous handler return). -/
theorem C4_rejected_promise_keeps_isSubmitting :
    (submitFormRun (fun _ => ()) HandlerOutcome.rejects submitForm0 []).afterCall.isSubmitting
        = true ∧
    (submitFormRun (fun _ => ()) HandlerOutcome.rejects submitForm0 []).whilePending = true ∧
    (submitFormRun (fun _ => ()) HandlerOutcome.rejects submitForm0 []).afterSettle.isSubmitting
        = true ∧
    (submitFormRun (fun _ => ()) HandlerOutcome.fulfills submitForm0 []).afterSettle.isSubmitting
        = false ∧
    (submitFormRun (fun _ => ()) HandlerOutcome.value submitForm0 []).afterSettle.isSubmitting
        = false :=
  ⟨rfl, rfl, rfl, rfl, rfl⟩

/-- C5: evaluation of Formeer.getInstance at the failing input: the first
lookup for the name login with the plain initial-values object holding an
email property.  getInstance forwards that object as the constructor options
bag, whose initialValues property is undefined, so the aggregate values
remain the fresh empty object instead of the passed tree. -/
theorem C5_initial_values_not_seeded :
    (formeerGetInstanceFirst "login" (Val.obj 7 [("email", Val.str "")]) 0).currentValues
        = Val.obj 0 [] ∧
    (formeerGetInstanceFirst "login" (Val.obj 7 [("email", Val.str "")]) 0).currentValues
        ≠ Val.obj 7 [("email", Val.str "")] ∧
    (formeerGetInstanceFirst "login"
        (Val.obj 7 [("initialValues", Val.obj 8 [("email", Val.str "")])]) 0).currentValues
        = Val.obj 8 [("email", Val.str "")] := by
  refine ⟨rfl, ?_, rfl⟩
  rw [show (formeerGetInstanceFirst "login" (Val.obj 7 [("email", Val.str "")]) 0).currentValues
      = Val.obj 0 [] from rfl]
  simp

/-- C8: for a form with no configured submit handler, submitForm is
non-fatal: it takes the warning branch, returns no result, never invokes a
handler, and performs no state change, so isSubmitting stays false and the
aggregate tree is untouched. -/
theorem C8_submit_without_handler (s : FormState) (outcome : HandlerOutcome)
    (ws : List (String × Val)) (hsub : s.isSubmitting = false) :
    submitForm (none : Option (Val → Unit)) outcome s ws = SubmitCall.warned s ∧
    (submitForm (none : Option (Val → Unit)) outcome s ws).finalState = s ∧
    (submitForm (none : Option (Val → Unit)) outcome s ws).returnedResult = none ∧
    (submitForm (none : Option (Val → Unit)) outcome s ws).finalState.isSubmitting = false ∧
    (submitForm (none : Option (Val → Unit)) outcome s ws).finalState.currentValues
      = s.currentValues :=
  ⟨rfl, rfl, rfl, by rw [show (submitForm (none : Option (Val → Unit)) outcome s ws).finalState
      = s from rfl]; exact hsub, rfl⟩

/-- C8 witness: concrete instantiation on the sample form. -/
theorem C8_submit_without_handler_witness :
    submitForm0.isSubmitting = false ∧
    (submitForm (none : Option (Val → Unit)) HandlerOutcome.value submitForm0 []
        = SubmitCall.warned submitForm0 ∧
      (submitForm (none : Option (Val → Unit)) HandlerOutcome.value submitForm0 []).finalState
        = submitForm0 ∧
      (submitForm (none : Option (Val → Unit)) HandlerOutcome.value submitForm0
          []).returnedResult = none ∧
      (submitForm (none : Option (Val → Unit)) HandlerOutcome.value submitForm0
          []).finalState.isSubmitting = false ∧
      (submitForm (none : Option (Val → Unit)) HandlerOutcome.value submitForm0
          []).finalState.currentValues = submitForm0.currentValues) :=
  ⟨rfl, C8_submit_without_handler submitForm0 HandlerOutcome.value [] rfl⟩

/-- C7: disabling a field whose stored error is a diagnostic string makes
the pure error stream report no error while the field is disabled, leaves
the stored error unchanged, and re-enabling makes the same stored error
visible again with the validator never re-invoked. -/
theorem C7_disable_hides_error_without_revalidation (s : FormState) (n : String)
    (f : FieldState) (e : String) (hf : findField s.fields n = some f)
    (he : f.error = some e) :
    (findField (setIsDisabledOp s n true).fields n).map (fun g => errorOut g true)
        = some none ∧
    (findField (setIsDisabledOp s n true).fields n).map FieldState.error = some (some e) ∧
    (findField (setIsDisabledOp (setIsDisabledOp s n true) n false).fields n).map
        (fun g => errorOut g true) = some (some e) ∧
    (findField (setIsDisabledOp (setIsDisabledOp s n true) n false).fields n).map
        FieldState.validatorRuns = some f.validatorRuns := by
  have h1 : findField (setIsDisabledOp s n true).fields n
      = some { f with isDisabled := true } := by
    rw [setIsDisabledOp, findField_modifyField, if_pos rfl, hf]
    rfl
  have h2 : findField (setIsDisabledOp (setIsDisabledOp s n true) n false).fields n
      = some { f with isDisabled := false } := by
    rw [setIsDisabledOp, findField_modifyField, if_pos rfl, h1]
    rfl
  refine ⟨?_, ?_, ?_, ?_⟩
  · rw [h1]
    simp [errorOut]
  · rw [h1]
    simp [he]
  · rw [h2]
    simp [errorOut, he]
  · rw [h2]
    rfl

/-- A field state carrying the stored diagnostic error required, used by the
concrete witnesses. -/
def requiredField : FieldState :=
  { value := Val.str "", error := some "required", isTouched := true, isDisabled := false,
    validator := some (fun _ _ => some "required"), validatorRuns := 1 }

/-- A one-field form whose field currently stores the error required. -/
def requiredForm : FormState :=
  { name := "f", values := Val.obj 0 [("a", Val.str "")], nextId := 1, fieldNames := ["a"],
    isSubmitting := false, initializeValues := false, fields := [("a", requiredField)] }

/-- C7 witness: concrete instantiation on the one-field form. -/
theorem C7_disable_hides_error_without_revalidation_witness :
    (findField requiredForm.fields "a" = some requiredField ∧
      requiredField.error = some "required") ∧
    ((findField (setIsDisabledOp requiredForm "a" true).fields "a").map
        (fun g => errorOut g true) = some none ∧
      (findField (setIsDisabledOp requiredForm "a" true).fields "a").map FieldState.error
        = some (some "required") ∧
      (findField (setIsDisabledOp (setIsDisabledOp requiredForm "a" true) "a" false).fields
          "a").map (fun g => errorOut g true) = some (some "required") ∧
      (findField (setIsDisabledOp (setIsDisabledOp requiredForm "a" true) "a" false).fields
          "a").map FieldState.validatorRuns = some requiredField.validatorRuns) :=
  ⟨⟨rfl, rfl⟩,
    C7_disable_hides_error_without_revalidation requiredForm "a" requiredField "required" rfl rfl⟩

/-- C9: while a field is disabled, runValidation returns before invoking the
validator, so triggerValidation, onBlur and handleChange all leave the
stored error (and the validator invocation count) unchanged, while
handleChange still updates the stored value. -/
theorem C9_disabled_validation_noop (s : FormState) (n : String) (f : FieldState) (v : Val)
    (hf : findField s.fields n = some f) (hd : f.isDisabled = true) :
    (findField (runValidationOn s n).fields n).map FieldState.error = some f.error ∧
    (findField (onBlur s n).fields n).map FieldState.error = some f.error ∧
    (findField (handleChange s n v).fields n).map FieldState.error = some f.error ∧
    (findField (handleChange s n v).fields n).map FieldState.value = some v ∧
    (findField (triggerValidation s).fields n).map FieldState.error = some f.error ∧
    (findField (triggerValidation s).fields n).map FieldState.validatorRuns
        = some f.validatorRuns := by
  have hrv : findField (runValidationOn s n).fields n = some f :=
    findField_runValidationOn_disabled s n n f hf hd
  have hblur : findField (onBlur s n).fields n = some { f with isTouched := true } := by
    simp only [onBlur, runValidationOn, findField_modifyField, if_pos rfl]
    simp [hf, runValidationWith, hd]
  have hchange : findField (handleChange s n v).fields n = some { f with value := v } := by
    simp only [handleChange, findField_modifyField, setFieldValue_fields, if_pos rfl]
    simp [hf, runValidationWith, hd]
  have htrig : findField (triggerValidation s).fields n = some f := by
    rw [triggerValidation]
    have key : ∀ (names : List String) (s2 : FormState), findField s2.fields n = some f →
        findField (names.foldl runValidationOn s2).fields n = some f := by
      intro names
      induction names with
      | nil => intro s2 h2; simpa using h2
      | cons m ms ih =>
        intro s2 h2
        exact ih _ (findField_runValidationOn_disabled s2 m n f h2 hd)
    exact key s.fieldNames s hf
  exact ⟨by simp [hrv], by simp [hblur], by simp [hchange], by simp [hchange],
    by simp [htrig], by simp [htrig]⟩

/-- A disabled field holding a stale error, used by the concrete witnesses. -/
def disabledField : FieldState :=
  { value := Val.str "old", error := some "stale", isTouched := false, isDisabled := true,
    validator := some (fun _ _ => some "fresh"), validatorRuns := 3 }

/-- A one-field form whose field is disabled. -/
def disabledForm : FormState :=
  { name := "f", values := Val.obj 0 [("a", Val.str "old")], nextId := 1, fieldNames := ["a"],
    isSubmitting := false, initializeValues := false, fields := [("a", disabledField)] }

/-- C9 witness: concrete instantiation on the disabled-field form. -/
theorem C9_disabled_validation_noop_witness :
    (findField disabledForm.fields "a" = some disabledField ∧
      disabledField.isDisabled = true) ∧
    ((findField (runValidationOn disabledForm "a").fields "a").map FieldState.error
        = some disabledField.error ∧
      (findField (onBlur disabledForm "a").fields "a").map FieldState.error
        = some disabledField.error ∧
      (findField (handleChange disabledForm "a" (Val.str "new")).fields "a").map
          FieldState.error = some disabledField.error ∧
      (findField (handleChange disabledForm "a" (Val.str "new")).fields "a").map
          FieldState.value = some (Val.str "new") ∧
      (findField (triggerValidation disabledForm).fields "a").map FieldState.error
        = some disabledField.error ∧
      (findField (triggerValidation disabledForm).fields "a").map FieldState.validatorRuns
        = some disabledField.validatorRuns) :=
  ⟨⟨rfl, rfl⟩,
    C9_disabled_validation_noop disabledForm "a" disabledField (Val.str "new") rfl rfl⟩

/-- C6: for a form with two registered fields a and b whose validators
currently produce errors, the combined error stream with hideUntouched
returns the empty list while neither field has been blurred; after a blur
on a it returns exactly the error reported for a, the untouched field b
staying suppressed. -/
theorem C6_hideUntouched_errors (s : FormState) (fa fb : FieldState)
    (va : Val → Val → Option String) (ea : String)
    (ha : findField s.fields "a" = some fa) (hb : findField s.fields "b" = some fb)
    (hnames : s.fieldNames = ["a", "b"])
    (hta : fa.isTouched = false) (htb : fb.isTouched = false)
    (hda : fa.isDisabled = false)
    (hva : fa.validator = some va) (hea : va fa.value s.values = some ea) (hne : ea ≠ "") :
    errorsOut s true none = [] ∧ errorsOut (onBlur s "a") true none = [ea] := by
  have hbe : (ea == "") = false := beq_eq_false_iff_ne.mpr hne
  constructor
  · simp [errorsOut, hnames, ha, hb, errorOut, hta, htb, truthyError]
  · have hA : findField (onBlur s "a").fields "a"
        = some { fa with isTouched := true, error := (some ea), validatorRuns := (fa.validatorRuns + 1) } := by
      simp only [onBlur, runValidationOn, findField_modifyField, if_pos rfl]
      simp [ha, runValidationWith, hda, hva, modifyField_values, hea]
    have hB : findField (onBlur s "a").fields "b" = some fb := by
      simp only [onBlur, runValidationOn, findField_modifyField]
      simp [hb]
    have hN : (onBlur s "a").fieldNames = ["a", "b"] := by
      simp only [onBlur, runValidationOn, modifyField_fieldNames]
      exact hnames
    simp [errorsOut, hN, hA, hB, errorOut, htb, hda, truthyError, hbe]

/-- A validator that always reports the error required, used by the C6
witness. -/
def alwaysRequired : Val → Val → Option String := fun _ _ => some "required"

/-- Field a of the two-field sample form: untouched, enabled, currently
producing an error. -/
def twoFieldA : FieldState :=
  { value := Val.str "", error := some "required", isTouched := false, isDisabled := false,
    validator := some alwaysRequired, validatorRuns := 1 }

/-- Field b of the two-field sample form: untouched, currently producing an
error. -/
def twoFieldB : FieldState :=
  { value := Val.str "", error := some "required", isTouched := false, isDisabled := false,
    validator := some alwaysRequired, validatorRuns := 1 }

/-- The two-field sample form with registered fields a and b. -/
def twoFieldForm : FormState :=
  { name := "f", values := Val.obj 0 [("a", Val.str ""), ("b", Val.str "")], nextId := 1,
    fieldNames := ["a", "b"], isSubmitting := false, initializeValues := false,
    fields := [("a", twoFieldA), ("b", twoFieldB)] }

/-- C6 witness: concrete instantiation on the two-field form. -/
theorem C6_hideUntouched_errors_witness :
    (findField twoFieldForm.fields "a" = some twoFieldA ∧
      findField twoFieldForm.fields "b" = some twoFieldB ∧
      twoFieldForm.fieldNames = ["a", "b"] ∧
      twoFieldA.isTouched = false ∧ twoFieldB.isTouched = false ∧
      twoFieldA.isDisabled = false ∧
      twoFieldA.validator = some alwaysRequired ∧
      alwaysRequired twoFieldA.value twoFieldForm.values = some "required" ∧
      "required" ≠ "") ∧
    (errorsOut twoFieldForm true none = [] ∧
      errorsOut (onBlur twoFieldForm "a") true none = ["required"]) :=
  ⟨⟨rfl, rfl, rfl, rfl, rfl, rfl, rfl, rfl, by decide⟩,
    C6_hideUntouched_errors twoFieldForm twoFieldA twoFieldB alwaysRequired "required"
      rfl rfl rfl rfl rfl rfl rfl rfl (by decide)⟩
